import Mathlib

/-!
Shallow embedding of the SkyWatcher SynScan protocol engine
(`src/skywatcher/synscan.py`, class `SynScanProtocol`) and proofs about it.

Real-valued Python arithmetic is modelled over `ℚ`; Python's `%` operator on
floats (result has the sign of the divisor) is modelled by `fmod`, and Python's
`int(...)` truncation toward zero by `pyTrunc`.  Serial I/O is modelled by
passing the device's behaviour explicitly and returning a trace of port
operations alongside the result.
-/

namespace SynScan

/-- Python's float `%`: `a % b = a - b * floor (a / b)` (sign of the divisor). -/
def fmod (a b : ℚ) : ℚ := a - b * ⌊a / b⌋

/-- Lemma: `fmod` rewritten through `Int.fract`. -/
lemma fmod_eq_mul_fract (a b : ℚ) (hb : b ≠ 0) :
    fmod a b = b * Int.fract (a / b) := by
  unfold fmod Int.fract
  field_simp

lemma fmod_nonneg (a : ℚ) {b : ℚ} (hb : 0 < b) : 0 ≤ fmod a b := by
  rw [fmod_eq_mul_fract a b hb.ne']
  exact mul_nonneg hb.le (Int.fract_nonneg _)

lemma fmod_lt (a : ℚ) {b : ℚ} (hb : 0 < b) : fmod a b < b := by
  rw [fmod_eq_mul_fract a b hb.ne']
  calc b * Int.fract (a / b) < b * 1 :=
        (mul_lt_mul_left hb).mpr (Int.fract_lt_one _)
    _ = b := mul_one b

/-- For inputs already in `[0, b)`, `fmod` is the identity. -/
lemma fmod_eq_self {a b : ℚ} (h0 : 0 ≤ a) (h1 : a < b) : fmod a b = a := by
  have hb : 0 < b := lt_of_le_of_lt h0 h1
  have hfloor : ⌊a / b⌋ = 0 := by
    rw [Int.floor_eq_zero_iff]
    constructor
    · exact div_nonneg h0 hb.le
    · rw [div_lt_one hb]; exact h1
  unfold fmod
  rw [hfloor]
  simp

/-- Value of one hex digit, as accepted by Python's `int(_, 16)` on a bare
hex digit character. -/
def hexDigitVal (c : Char) : Option ℕ :=
  if '0' ≤ c ∧ c ≤ '9' then some (c.toNat - 48)
  else if 'a' ≤ c ∧ c ≤ 'f' then some (c.toNat - 87)
  else if 'A' ≤ c ∧ c ≤ 'F' then some (c.toNat - 55)
  else none

/-- Value of `int(s, 16)` on a two-character slice of the hex string. -/
def hexPairVal (a b : Char) : Option ℕ :=
  match hexDigitVal a, hexDigitVal b with
  | some x, some y => some (16 * x + y)
  | _, _ => none

/-- Transcription of `parse_little_endian_hex(hex_str)` (synscan.py lines 233–255): strings are
modelled as `List Char`.  A length other than 6 raises `ValueError`
(modelled as `Except.error`); otherwise the three byte slices are parsed with
`int(_, 16)` and combined as `(high <<< 16) ||| (mid <<< 8) ||| low`. -/
def parse_little_endian_hex (hex_str : List Char) : Except String ℕ :=
  if hex_str.length ≠ 6 then
    .error ("Invalid hex string length: " ++ toString hex_str.length ++ ", expected 6")
  else
    match hex_str with
    | [a, b, c, d, e, f] =>
      match hexPairVal a b, hexPairVal c d, hexPairVal e f with
      | some low, some mid, some high =>
        .ok (Nat.lor (Nat.lor (Nat.shiftLeft high 16) (Nat.shiftLeft mid 8)) low)
      | _, _, _ => .error "invalid literal for int() with base 16"
    | _ => .error "unreachable"

/-- C1. On every 6-character hex string the legacy decoder returns
`(high <<< 16) ||| (mid <<< 8) ||| low` with the first two characters as the
low byte, the next two as the middle byte, and the last two as the high byte;
`"00204E"` decodes to `0x4E2000`; and every string whose length is not 6 is
rejected with an error instead of a value. -/
theorem c1_parse_little_endian_hex_spec :
    (∀ (a b c d e f : Char) (low mid high : ℕ),
      hexPairVal a b = some low → hexPairVal c d = some mid →
      hexPairVal e f = some high →
      parse_little_endian_hex [a, b, c, d, e, f] =
        .ok (Nat.lor (Nat.lor (Nat.shiftLeft high 16) (Nat.shiftLeft mid 8)) low)) ∧
    parse_little_endian_hex ['0', '0', '2', '0', '4', 'E'] = .ok 0x4E2000 ∧
    (∀ s : List Char, s.length ≠ 6 → ∀ n : ℕ, parse_little_endian_hex s ≠ .ok n) := by
  refine ⟨?_, by rfl, ?_⟩
  · intro a b c d e f low mid high hl hm hh
    simp only [parse_little_endian_hex, List.length_cons, List.length_nil]
    norm_num
    rw [hl, hm, hh]
  · intro s hs n
    unfold parse_little_endian_hex
    rw [if_pos hs]
    simp

/-- Witness for C1: a length-1 string is rejected. -/
theorem c1_parse_little_endian_hex_witness :
    (['0'] : List Char).length ≠ 6 ∧ parse_little_endian_hex ['0'] ≠ .ok 0 :=
  ⟨by decide, c1_parse_little_endian_hex_spec.2.2 ['0'] (by decide) 0⟩

/-- Transcription of `range24(h)`: normalize hours into `[0, 24)` (synscan.py line 256). -/
def range24 (h : ℚ) : ℚ := fmod h 24

/-- Transcription of `range360(d)`: normalize degrees into `[0, 360)` (synscan.py line 260). -/
def range360 (d : ℚ) : ℚ := fmod d 360

/-- Transcription of `range_dec(d)`: map a 0–360° ring value to signed declination
(synscan.py lines 264–276, transcribed branch for branch). -/
def range_dec (d : ℚ) : ℚ :=
  let r := range360 d
  if r ≤ 90 then r
  else if r ≤ 180 then 180 - r
  else if r ≤ 270 then 180 - r
  else r - 360

/-- Transcription of `range_ha(h)`: normalize an hour angle into `[-12, 12)`
(synscan.py lines 278–283). -/
def range_ha (h : ℚ) : ℚ := fmod (h + 12) 24 - 12

lemma range360_nonneg (d : ℚ) : 0 ≤ range360 d := fmod_nonneg d (by norm_num)

lemma range360_lt (d : ℚ) : range360 d < 360 := fmod_lt d (by norm_num)

lemma range24_nonneg (h : ℚ) : 0 ≤ range24 h := fmod_nonneg h (by norm_num)

lemma range24_lt (h : ℚ) : range24 h < 24 := fmod_lt h (by norm_num)

lemma range_dec_lower (d : ℚ) : -90 ≤ range_dec d := by
  have h0 := range360_nonneg d
  have h1 := range360_lt d
  simp only [range_dec]
  split_ifs <;> linarith

lemma range_dec_upper (d : ℚ) : range_dec d ≤ 90 := by
  have h0 := range360_nonneg d
  have h1 := range360_lt d
  simp only [range_dec]
  split_ifs <;> linarith

/-- C2. The function `range_dec` first reduces its input modulo 360 to `r ∈ [0,360)`,
then maps `r ≤ 90` to `r`, `r ∈ (90, 270]` to `180 − r`, and `r > 270` to
`r − 360`; in particular `range_dec 0 = 0`, `range_dec 90 = 90`,
`range_dec 91 = 89`, `range_dec 270 = -90`, `range_dec 271 = -89`. -/
theorem c2_range_dec_spec :
    (∀ d : ℚ, 0 ≤ range360 d ∧ range360 d < 360 ∧
      range_dec d =
        (if range360 d ≤ 90 then range360 d
         else if range360 d ≤ 270 then 180 - range360 d
         else range360 d - 360)) ∧
    range_dec 0 = 0 ∧ range_dec 90 = 90 ∧ range_dec 91 = 89 ∧
    range_dec 270 = -90 ∧ range_dec 271 = -89 := by
  refine ⟨fun d => ⟨range360_nonneg d, range360_lt d, ?_⟩, ?_, ?_, ?_, ?_, ?_⟩
  · simp only [range_dec]
    split_ifs <;> first | rfl | linarith
  all_goals
    simp only [range_dec, range360, fmod]
    norm_num

/-- Python's `int(x)` on a float/rational: truncation toward zero. -/
def pyTrunc (q : ℚ) : ℤ := if 0 ≤ q then ⌊q⌋ else ⌈q⌉

/-- Hemisphere, the `'NORTH'` / `'SOUTH'` strings of the Python class. -/
inductive Hemisphere
  | north
  | south
  deriving DecidableEq

/-- Mutable fields of `SynScanProtocol` used by the modelled operations
(`__init__`, synscan.py lines 42–71). -/
structure MountState where
  stepsPerRevolution : ℤ
  hemisphere : Hemisphere
  latitude : Option ℚ
  longitude : Option ℚ
  currentRa : ℚ
  currentDec : ℚ
  zeroRaEncoder : ℤ
  zeroDecEncoder : ℤ
  deriving DecidableEq

/-- The state right after `__init__`: `STEPS_PER_REVOLUTION = 5120000`,
hemisphere `'NORTH'`, no observer location, cached position `(0, 0)`,
zero encoder offsets. -/
def initState : MountState :=
  { stepsPerRevolution := 5120000
    hemisphere := .north
    latitude := none
    longitude := none
    currentRa := 0
    currentDec := 0
    zeroRaEncoder := 0
    zeroDecEncoder := 0 }

/-- Transcription of `steps_to_degrees(steps)` (synscan.py lines 415–426). -/
def steps_to_degrees (st : MountState) (steps : ℤ) : ℚ :=
  fmod ((steps : ℚ) / (st.stepsPerRevolution : ℚ) * 360) 360

/-- Transcription of `degrees_to_steps(degrees)` (synscan.py lines 428–439). -/
def degrees_to_steps (st : MountState) (degrees : ℚ) : ℤ :=
  pyTrunc (degrees / 360 * (st.stepsPerRevolution : ℚ)) % st.stepsPerRevolution

/-- C4. For every step count in `[0, stepsPerRev)` the round trip
`degrees_to_steps (steps_to_degrees steps)` returns exactly `steps`
(the rational-arithmetic model is exact, so no rounding slack is needed). -/
theorem c4_steps_roundtrip (st : MountState) (steps : ℤ)
    (hrev : 0 < st.stepsPerRevolution)
    (h0 : 0 ≤ steps) (h1 : steps < st.stepsPerRevolution) :
    degrees_to_steps st (steps_to_degrees st steps) = steps := by
  set n := st.stepsPerRevolution with hn
  have hnq : (0 : ℚ) < (n : ℚ) := by exact_mod_cast hrev
  have hsq : (0 : ℚ) ≤ (steps : ℚ) := by exact_mod_cast h0
  have hlt : (steps : ℚ) < (n : ℚ) := by exact_mod_cast h1
  have hd0 : (0 : ℚ) ≤ (steps : ℚ) / (n : ℚ) * 360 :=
    mul_nonneg (div_nonneg hsq hnq.le) (by norm_num)
  have hd1 : (steps : ℚ) / (n : ℚ) * 360 < 360 := by
    have : (steps : ℚ) / (n : ℚ) < 1 := (div_lt_one hnq).mpr hlt
    nlinarith
  have hstd : steps_to_degrees st steps = (steps : ℚ) / (n : ℚ) * 360 := by
    unfold steps_to_degrees
    rw [← hn]
    exact fmod_eq_self hd0 hd1
  unfold degrees_to_steps
  rw [hstd, ← hn]
  have hback : (steps : ℚ) / (n : ℚ) * 360 / 360 * (n : ℚ) = (steps : ℚ) := by
    field_simp
    ring
  rw [hback]
  unfold pyTrunc
  rw [if_pos hsq, Int.floor_intCast]
  exact Int.emod_eq_of_lt h0 h1

/-- Witness for C4 at the default steps-per-revolution. -/
theorem c4_steps_roundtrip_witness :
    0 < initState.stepsPerRevolution ∧ (0 : ℤ) ≤ 1280000 ∧
      (1280000 : ℤ) < initState.stepsPerRevolution ∧
      degrees_to_steps initState (steps_to_degrees initState 1280000) = 1280000 :=
  ⟨by decide, by decide, by decide,
    c4_steps_roundtrip initState 1280000 (by decide) (by decide) (by decide)⟩

/-- Julian day as both LST call sites compute it:
`jd = 2451545.0 + (now - J2000.0).total_seconds() / 86400.0`.  The current
UTC time is modelled by its signed second offset from the J2000.0 epoch. -/
def jdOf (secondsSinceJ2000 : ℚ) : ℚ := 2451545 + secondsSinceJ2000 / 86400

/-- Transcription of `compute_lst_hours()` (synscan.py lines 285–300): linear GMST polynomial,
plus longitude (default 0 when unset), mod 360, divided by 15. -/
def compute_lst_hours (st : MountState) (secondsSinceJ2000 : ℚ) : ℚ :=
  let lon := st.longitude.getD 0
  let jd := jdOf secondsSinceJ2000
  let gmst := fmod (280.46061837 + 360.98564736629 * (jd - 2451545)) 360
  let lst_deg := fmod (gmst + lon) 360
  lst_deg / 15

/-- The LST computation inlined in `altaz_to_radec` (synscan.py lines
972–975), in degrees.  The trigonometric part of `altaz_to_radec` is not
needed by any claim and is not modelled. -/
def altaz_lst_deg (secondsSinceJ2000 lon : ℚ) : ℚ :=
  let jd := jdOf secondsSinceJ2000
  let gmst := fmod (280.46061837 + 360.98564736629 * (jd - 2451545)) 360
  fmod (gmst + lon) 360

/-- Transcription of `encoder_to_hours(step, initstep)` (synscan.py lines 302–318). -/
def encoder_to_hours (st : MountState) (step initstep : ℤ) : ℚ :=
  let totalstep : ℚ := (st.stepsPerRevolution : ℚ)
  let base_hours : ℚ :=
    if step > initstep then 24 - ((step - initstep : ℤ) : ℚ) / totalstep * 24
    else ((initstep - step : ℤ) : ℚ) / totalstep * 24
  if st.hemisphere = .north then range24 (base_hours + 6)
  else range24 ((24 - base_hours) + 6)

/-- Transcription of `encoder_to_degrees(step, initstep)` (synscan.py lines 320–336). -/
def encoder_to_degrees (st : MountState) (step initstep : ℤ) : ℚ :=
  let totalstep : ℚ := (st.stepsPerRevolution : ℚ)
  let base_deg : ℚ :=
    if step > initstep then ((step - initstep : ℤ) : ℚ) / totalstep * 360
    else 360 - ((initstep - step : ℤ) : ℚ) / totalstep * 360
  if st.hemisphere = .north then range360 base_deg
  else range360 (360 - base_deg)

/-- Transcription of `encoders_to_radec(ra_step, dec_step)` (synscan.py lines 338–371),
returning `(ra_deg, dec_deg)`. -/
def encoders_to_radec (st : MountState) (secondsSinceJ2000 : ℚ)
    (ra_step dec_step : ℤ) : ℚ × ℚ :=
  let ha_hours := encoder_to_hours st ra_step st.zeroRaEncoder
  let dec_raw_deg := encoder_to_degrees st dec_step st.zeroDecEncoder
  let lst_hours := compute_lst_hours st secondsSinceJ2000
  let ra_hours := lst_hours - ha_hours
  let adjust : ℚ :=
    if st.hemisphere = .north then
      if 90 < dec_raw_deg ∧ dec_raw_deg ≤ 270 then -12 else 0
    else
      if dec_raw_deg ≤ 90 ∨ 270 < dec_raw_deg then 12 else 0
  let ra_hours := if adjust ≠ 0 then ra_hours + adjust else ra_hours
  let ra_norm := range24 ra_hours
  let dec_deg := range_dec dec_raw_deg
  (ra_norm * 15, dec_deg)

/-- C3. The 12-hour meridian-flip correction in `encoders_to_radec`:
North with `dec_raw ∈ (90, 270]` subtracts 12h from `ra_hours`; South with
`dec_raw ≤ 90` or `dec_raw > 270` adds 12h; in every other case `ra_hours`
is left unchanged by this step. -/
theorem c3_meridian_flip (st : MountState) (secondsSinceJ2000 : ℚ)
    (ra_step dec_step : ℤ) :
    ((st.hemisphere = .north ∧
        90 < encoder_to_degrees st dec_step st.zeroDecEncoder ∧
        encoder_to_degrees st dec_step st.zeroDecEncoder ≤ 270) →
      (encoders_to_radec st secondsSinceJ2000 ra_step dec_step).1 =
        range24 ((compute_lst_hours st secondsSinceJ2000 -
          encoder_to_hours st ra_step st.zeroRaEncoder) - 12) * 15) ∧
    ((st.hemisphere = .north ∧
        ¬(90 < encoder_to_degrees st dec_step st.zeroDecEncoder ∧
          encoder_to_degrees st dec_step st.zeroDecEncoder ≤ 270)) →
      (encoders_to_radec st secondsSinceJ2000 ra_step dec_step).1 =
        range24 (compute_lst_hours st secondsSinceJ2000 -
          encoder_to_hours st ra_step st.zeroRaEncoder) * 15) ∧
    ((st.hemisphere = .south ∧
        (encoder_to_degrees st dec_step st.zeroDecEncoder ≤ 90 ∨
          270 < encoder_to_degrees st dec_step st.zeroDecEncoder)) →
      (encoders_to_radec st secondsSinceJ2000 ra_step dec_step).1 =
        range24 ((compute_lst_hours st secondsSinceJ2000 -
          encoder_to_hours st ra_step st.zeroRaEncoder) + 12) * 15) ∧
    ((st.hemisphere = .south ∧
        ¬(encoder_to_degrees st dec_step st.zeroDecEncoder ≤ 90 ∨
          270 < encoder_to_degrees st dec_step st.zeroDecEncoder)) →
      (encoders_to_radec st secondsSinceJ2000 ra_step dec_step).1 =
        range24 (compute_lst_hours st secondsSinceJ2000 -
          encoder_to_hours st ra_step st.zeroRaEncoder) * 15) := by
  have hsn : Hemisphere.south ≠ Hemisphere.north := fun h => Hemisphere.noConfusion h
  refine ⟨?_, ?_, ?_, ?_⟩ <;> rintro ⟨hh, hc⟩ <;>
    simp only [encoders_to_radec, hh, reduceIte]
  · rw [if_pos hc, if_pos (show ((-12 : ℚ)) ≠ 0 by norm_num)]
    congr 2
    ring
  · rw [if_neg hc, if_neg (show ¬((0 : ℚ) ≠ 0) by norm_num)]
  · rw [if_neg hsn, if_pos hc, if_pos (show ((12 : ℚ)) ≠ 0 by norm_num)]
  · rw [if_neg hsn, if_neg hc, if_neg (show ¬((0 : ℚ) ≠ 0) by norm_num)]

/-- Witness for C3: the North no-flip case at the initial state with
`dec_step = 0` (raw declination 0°). -/
theorem c3_meridian_flip_witness :
    (initState.hemisphere = .north ∧
      ¬(90 < encoder_to_degrees initState 0 initState.zeroDecEncoder ∧
        encoder_to_degrees initState 0 initState.zeroDecEncoder ≤ 270)) ∧
    (encoders_to_radec initState 0 0 0).1 =
      range24 (compute_lst_hours initState 0 -
        encoder_to_hours initState 0 initState.zeroRaEncoder) * 15 :=
  ⟨⟨rfl, by norm_num [encoder_to_degrees, range360, fmod, initState]⟩,
    (c3_meridian_flip initState 0 0 0).2.1
      ⟨rfl, by norm_num [encoder_to_degrees, range360, fmod, initState]⟩⟩

/-- C9 counterexample. The claim asserts the two LST call sites
(`compute_lst_hours` and the one inlined in `altaz_to_radec`) differ for some
time and longitude; in fact they are the same linear-GMST computation, so no
such time and longitude exist. -/
theorem c9_counterexample :
    ¬ ∃ (st : MountState) (lon secondsSinceJ2000 : ℚ),
        st.longitude = some lon ∧
        compute_lst_hours st secondsSinceJ2000 ≠
          altaz_lst_deg secondsSinceJ2000 lon / 15 := by
  rintro ⟨st, lon, secs, hlon, hne⟩
  apply hne
  unfold compute_lst_hours altaz_lst_deg
  rw [hlon]
  rfl

/-- C9 amended. Both call sites use the identical simple linear GMST
polynomial: for every time and configured longitude, `compute_lst_hours`
equals the LST inlined in `altaz_to_radec` converted to hours. -/
theorem c9_lst_formulas_agree (st : MountState) (lon secondsSinceJ2000 : ℚ)
    (h : st.longitude = some lon) :
    compute_lst_hours st secondsSinceJ2000 =
      altaz_lst_deg secondsSinceJ2000 lon / 15 := by
  unfold compute_lst_hours altaz_lst_deg
  rw [h]
  rfl

/-- Witness for the amended C9 at longitude 0 and the J2000.0 epoch. -/
theorem c9_lst_formulas_agree_witness :
    ({ initState with longitude := some 0 } : MountState).longitude = some 0 ∧
    compute_lst_hours { initState with longitude := some 0 } 0 =
      altaz_lst_deg 0 0 / 15 :=
  ⟨rfl, c9_lst_formulas_agree { initState with longitude := some 0 } 0 0 rfl⟩

/-- Outcome of `float(resp.strip())` on the `j` response inside
`get_axis_degree`: the command may fail (`noResp`), the text may not parse as
a decimal number (`notFloat`), or it parses to a value. -/
inductive FloatParse
  | noResp
  | notFloat
  | val (q : ℚ)
  deriving DecidableEq

/-- Transcription of `get_axis_degree(axis)` (synscan.py lines 441–466); `'1'` is the RA axis
and `'2'` the DEC axis.  The serial read and `float` parse are modelled by
the `FloatParse` argument. -/
def get_axis_degree (axis : Char) (resp : FloatParse) : Option ℚ :=
  match resp with
  | .noResp => none
  | .notFloat => none
  | .val deg =>
    if axis = '1' then some (range360 deg)
    else
      let deg := if deg < -90 then (-90 : ℚ) else deg
      let deg := if deg > 90 then (90 : ℚ) else deg
      some deg

/-- The serial-dependent inputs of one `get_ra_dec()` call: the parsed `j`
response per axis for the direct decimal path, the step counts produced by
`get_position` per axis for the legacy fallback (abstracting its own
hex/decimal parsing to its integer result), and the current time. -/
structure GetRaDecInput where
  raResp : FloatParse
  decResp : FloatParse
  raSteps : Option ℤ
  decSteps : Option ℤ
  secondsSinceJ2000 : ℚ

/-- The legacy fallback half of `get_ra_dec()` (synscan.py lines 489–502):
read raw encoder steps for both axes and convert with `encoders_to_radec`,
updating the cache on success. -/
def get_ra_dec_fallback (st : MountState) (inp : GetRaDecInput) :
    Option (ℚ × ℚ) × MountState :=
  match inp.raSteps, inp.decSteps with
  | some ra_steps, some dec_steps =>
    let rd := encoders_to_radec st inp.secondsSinceJ2000 ra_steps dec_steps
    (some rd, { st with currentRa := rd.1, currentDec := rd.2 })
  | _, _ => (none, st)

/-- Transcription of `get_ra_dec()` (synscan.py lines 468–502): the direct decimal path is
used when both axes parse; otherwise the encoder fallback runs; the cache
`current_ra`/`current_dec` is updated on every successful path. -/
def get_ra_dec (st : MountState) (inp : GetRaDecInput) :
    Option (ℚ × ℚ) × MountState :=
  match get_axis_degree '1' inp.raResp, get_axis_degree '2' inp.decResp with
  | some ra_deg, some dec_deg =>
    (some (ra_deg, dec_deg), { st with currentRa := ra_deg, currentDec := dec_deg })
  | _, _ => get_ra_dec_fallback st inp

lemma get_axis_degree_ra_bounds {r : FloatParse} {q : ℚ}
    (h : get_axis_degree '1' r = some q) : 0 ≤ q ∧ q < 360 := by
  cases r with
  | noResp => simp [get_axis_degree] at h
  | notFloat => simp [get_axis_degree] at h
  | val deg =>
    simp only [get_axis_degree, reduceIte, Option.some_inj] at h
    subst h
    exact ⟨range360_nonneg deg, range360_lt deg⟩

lemma get_axis_degree_dec_bounds {r : FloatParse} {q : ℚ}
    (h : get_axis_degree '2' r = some q) : -90 ≤ q ∧ q ≤ 90 := by
  cases r with
  | noResp => simp [get_axis_degree] at h
  | notFloat => simp [get_axis_degree] at h
  | val deg =>
    simp only [get_axis_degree] at h
    rw [if_neg (show ¬(('2' : Char) = '1') by decide)] at h
    simp only [Option.some_inj] at h
    rw [← h]
    split_ifs <;> push_neg at * <;> constructor <;> linarith

lemma encoders_to_radec_bounds (st : MountState) (secs : ℚ) (rs ds : ℤ) :
    0 ≤ (encoders_to_radec st secs rs ds).1 ∧
      (encoders_to_radec st secs rs ds).1 < 360 ∧
      -90 ≤ (encoders_to_radec st secs rs ds).2 ∧
      (encoders_to_radec st secs rs ds).2 ≤ 90 := by
  have hlow : ∀ x : ℚ, 0 ≤ range24 x * 15 := fun x =>
    mul_nonneg (range24_nonneg x) (by norm_num)
  have hhigh : ∀ x : ℚ, range24 x * 15 < 360 := fun x => by
    have := range24_lt x
    linarith
  simp only [encoders_to_radec]
  exact ⟨hlow _, hhigh _, range_dec_lower _, range_dec_upper _⟩

/-- C5. Every coordinate pair a successful `get_ra_dec` read produces —
via the direct decimal path or the encoder fallback — satisfies
`RA ∈ [0, 360)` and `DEC ∈ [-90, 90]`, and the cached position
`(current_ra, current_dec)` equals that pair afterwards. -/
theorem c5_position_bounds (st : MountState) (inp : GetRaDecInput)
    (ra dec : ℚ) (h : (get_ra_dec st inp).1 = some (ra, dec)) :
    0 ≤ ra ∧ ra < 360 ∧ -90 ≤ dec ∧ dec ≤ 90 ∧
    (get_ra_dec st inp).2.currentRa = ra ∧
    (get_ra_dec st inp).2.currentDec = dec := by
  have fallback : (get_ra_dec_fallback st inp).1 = some (ra, dec) →
      0 ≤ ra ∧ ra < 360 ∧ -90 ≤ dec ∧ dec ≤ 90 ∧
      (get_ra_dec_fallback st inp).2.currentRa = ra ∧
      (get_ra_dec_fallback st inp).2.currentDec = dec := by
    intro hf
    cases h3 : inp.raSteps with
    | some rs =>
      cases h4 : inp.decSteps with
      | some ds =>
        simp only [get_ra_dec_fallback, h3, h4, Option.some_inj] at hf ⊢
        have hb := encoders_to_radec_bounds st inp.secondsSinceJ2000 rs ds
        have hra : (encoders_to_radec st inp.secondsSinceJ2000 rs ds).1 = ra := by
          rw [hf]
        have hdec : (encoders_to_radec st inp.secondsSinceJ2000 rs ds).2 = dec := by
          rw [hf]
        rw [hra, hdec] at hb
        exact ⟨hb.1, hb.2.1, hb.2.2.1, hb.2.2.2, hra, hdec⟩
      | none =>
        simp only [get_ra_dec_fallback, h3, h4] at hf
        simp at hf
    | none =>
      cases h4 : inp.decSteps <;>
        simp only [get_ra_dec_fallback, h3, h4] at hf <;> simp at hf
  cases h1 : get_axis_degree '1' inp.raResp with
  | some q1 =>
    cases h2 : get_axis_degree '2' inp.decResp with
    | some q2 =>
      simp only [get_ra_dec, h1, h2, Option.some_inj, Prod.mk.injEq] at h ⊢
      obtain ⟨hra, hdec⟩ := h
      subst hra; subst hdec
      have b1 := get_axis_degree_ra_bounds h1
      have b2 := get_axis_degree_dec_bounds h2
      exact ⟨b1.1, b1.2, b2.1, b2.2, rfl, rfl⟩
    | none =>
      simp only [get_ra_dec, h1, h2] at h ⊢
      exact fallback h
  | none =>
    cases h2 : get_axis_degree '2' inp.decResp <;>
      simp only [get_ra_dec, h1, h2] at h ⊢ <;>
      exact fallback h

/-- Witness for C5: a direct read of `400°` RA and `95°` DEC normalizes to
`(40, 90)` and the cache follows. -/
theorem c5_position_bounds_witness :
    (get_ra_dec initState ⟨.val 400, .val 95, none, none, 0⟩).1 =
        some ((40 : ℚ), (90 : ℚ)) ∧
      (0 : ℚ) ≤ 40 ∧ (40 : ℚ) < 360 ∧ (-90 : ℚ) ≤ 90 ∧ (90 : ℚ) ≤ 90 ∧
      (get_ra_dec initState ⟨.val 400, .val 95, none, none, 0⟩).2.currentRa = 40 ∧
      (get_ra_dec initState ⟨.val 400, .val 95, none, none, 0⟩).2.currentDec = 90 :=
  have h : (get_ra_dec initState ⟨.val 400, .val 95, none, none, 0⟩).1 =
      some ((40 : ℚ), (90 : ℚ)) := by
    norm_num [get_ra_dec, get_axis_degree, range360, fmod,
      show ¬(('2' : Char) = '1') by decide]
  ⟨h, by
    have := c5_position_bounds initState ⟨.val 400, .val 95, none, none, 0⟩ 40 90 h
    exact ⟨this.1, this.2.1, this.2.2.1, this.2.2.2.1, this.2.2.2.2.1,
      this.2.2.2.2.2⟩⟩

/-- Behaviour of the device and serial layer during one command round trip:
an exception inside the try block (`raises`), no bytes before the timeout
(`silent`), or a byte stream made available to the reader (`replies`). -/
inductive DeviceBehavior
  | raises
  | silent
  | replies (line : List Char)
  deriving DecidableEq

/-- One physical operation on the serial port. -/
inductive PortOp (α : Type)
  | resetInput
  | write (data : α)
  | readByte
  deriving DecidableEq

/-- The inner read loop of `send_command`: consume bytes until `'\r'`
(inclusive); without a terminator the loop times out having read
everything available. -/
def readToCR : List Char → List Char
  | [] => []
  | c :: rest => if c = '\r' then [c] else c :: readToCR rest

/-- The response accumulation loop of `send_command` (synscan.py lines
193–213): bytes are appended until a `'='` or `'!'` is seen, then reading
continues until `'\r'`; with no start byte the loop times out having read
everything available. -/
def readResponse : List Char → List Char
  | [] => []
  | c :: rest =>
    if c = '=' ∨ c = '!' then c :: readToCR rest else c :: readResponse rest

/-- Transcription of `response[1:].rstrip('\r\n')` applied to the payload. -/
def rstripCRLF (l : List Char) : List Char :=
  (l.reverse.dropWhile (fun c => c == '\r' || c == '\n')).reverse

/-- The outgoing frame `":" + command + axis + data + "\r"`. -/
def buildFrame (axis command : Char) (data : List Char) : List Char :=
  ':' :: command :: axis :: (data ++ ['\r'])

/-- Transcription of `send_command(axis, command, data)` (synscan.py lines 165–231), as a
function of the link state and device behaviour, returning the tagged
result (`some` payload or `none`) together with the port-operation trace.
The link-closed branch returns before the try block; an exception inside
the try block is caught and becomes `none`. -/
def send_command (connected : Bool) (b : DeviceBehavior)
    (axis command : Char) (data : List Char) :
    Option (List Char) × List (PortOp (List Char)) :=
  if !connected then (none, [])
  else
    let frame := buildFrame axis command data
    match b with
    | .raises => (none, [.resetInput])
    | .silent => (none, [.resetInput, .write frame])
    | .replies line =>
      let resp := readResponse line
      let trace : List (PortOp (List Char)) :=
        [.resetInput, .write frame] ++ List.replicate resp.length .readByte
      if resp.head? = some '=' then (some (rstripCRLF resp.tail), trace)
      else (none, trace)

/-- C7. The channel entry point `send_command` never raises: for every device behaviour it
returns a tagged result — `some` data exactly when the device's response
line starts with `'='`, `none` on device error, timeout, or malformed
response — and when the link is not open it returns the failure immediately
with an empty port trace (no reads or writes). -/
theorem c7_send_command_total (b : DeviceBehavior) (axis command : Char)
    (data : List Char) :
    send_command false b axis command data = (none, []) ∧
    ((send_command true b axis command data).1 = none ∨
      ∃ line, b = .replies line ∧ (readResponse line).head? = some '=' ∧
        (send_command true b axis command data).1 =
          some (rstripCRLF (readResponse line).tail)) := by
  constructor
  · simp [send_command]
  · cases b with
    | raises => left; simp [send_command]
    | silent => left; simp [send_command]
    | replies line =>
      by_cases hstart : (readResponse line).head? = some '='
      · right
        exact ⟨line, rfl, hstart, by simp [send_command, hstart]⟩
      · left
        simp [send_command, hstart]

/-- The result classification of one `send_command` round trip, independent
of the frame written (it matches `(send_command true b _ _ _).1`). -/
def respClassified (b : DeviceBehavior) : Option (List Char) :=
  match b with
  | .raises => none
  | .silent => none
  | .replies line =>
    if (readResponse line).head? = some '=' then
      some (rstripCRLF (readResponse line).tail)
    else none

lemma send_command_fst (b : DeviceBehavior) (axis command : Char)
    (data : List Char) :
    (send_command true b axis command data).1 = respClassified b := by
  cases b with
  | raises => rfl
  | silent => rfl
  | replies line =>
    simp only [send_command, respClassified]
    split_ifs with h1 h2 <;> first | rfl | simp at h1

/-- Serial output emitted by `goto_ra_dec`: the raw `:G200\r` write and the
composite `:X1{ra_hours},{dec_deg}\r` command (its decimal payload modelled
by the rational pair it formats). -/
inductive GotoWrite
  | g200
  | xcmd (raHours decDeg : ℚ)
  deriving DecidableEq

/-- Transcription of `goto_ra_dec(ra_deg, dec_deg)` (synscan.py lines 601–648): range check,
RA normalization to `[0, 360)`, optional `:G200` write (skipped when the
link is closed), then the `X` command through `send_command` (which writes
nothing when the link is closed, and catches its own exceptions).
`g200Raises` models an exception on the raw `:G200` write, caught by this
function's own handler. -/
def goto_ra_dec (connected g200Raises : Bool) (b : DeviceBehavior)
    (ra_deg dec_deg : ℚ) : Bool × List GotoWrite :=
  if ¬(-3600 ≤ ra_deg ∧ ra_deg ≤ 3600) ∨ ¬(-90 ≤ dec_deg ∧ dec_deg ≤ 90) then
    (false, [])
  else
    let ra := range360 ra_deg
    let ra_hours := ra / 15
    if connected then
      if g200Raises then (false, [])
      else
        let xtrace : List GotoWrite :=
          match b with
          | .raises => []
          | _ => [.xcmd ra_hours dec_deg]
        match respClassified b with
        | some _ => (true, .g200 :: xtrace)
        | none => (false, .g200 :: xtrace)
    else (false, [])

/-- C6. The operation `goto_ra_dec` returns `False` with no serial I/O whenever RA is
outside `[-3600, 3600]` or DEC outside `[-90, 90]`; for in-range inputs the
RA carried by the GOTO payload is first normalized into `[0, 360)`
(`range360 ra / 15` hours). -/
theorem c6_goto_validation (connected g200Raises : Bool) (b : DeviceBehavior)
    (ra_deg dec_deg : ℚ) :
    ((¬(-3600 ≤ ra_deg ∧ ra_deg ≤ 3600) ∨ ¬(-90 ≤ dec_deg ∧ dec_deg ≤ 90)) →
      goto_ra_dec connected g200Raises b ra_deg dec_deg = (false, [])) ∧
    (-3600 ≤ ra_deg → ra_deg ≤ 3600 → -90 ≤ dec_deg → dec_deg ≤ 90 →
      (0 ≤ range360 ra_deg ∧ range360 ra_deg < 360) ∧
      ∀ h d, GotoWrite.xcmd h d ∈ (goto_ra_dec connected g200Raises b ra_deg dec_deg).2 →
        h = range360 ra_deg / 15 ∧ d = dec_deg) := by
  constructor
  · intro hinv
    unfold goto_ra_dec
    rw [if_pos hinv]
  · intro h1 h2 h3 h4
    refine ⟨⟨range360_nonneg _, range360_lt _⟩, ?_⟩
    intro h d hmem
    unfold goto_ra_dec at hmem
    rw [if_neg (not_or.mpr ⟨not_not_intro ⟨h1, h2⟩, not_not_intro ⟨h3, h4⟩⟩)]
      at hmem
    cases connected with
    | false => simp at hmem
    | true =>
      cases g200Raises with
      | true => simp at hmem
      | false =>
        cases b with
        | raises => simp [respClassified] at hmem
        | silent =>
          simp [respClassified] at hmem
          exact hmem
        | replies line =>
          cases hr : respClassified (.replies line) <;>
            rw [hr] at hmem <;> simp at hmem <;> exact hmem

/-- Witness for C6: RA 5000 is out of range, so the call fails with an
empty trace. -/
theorem c6_goto_validation_witness :
    (¬(-3600 ≤ (5000 : ℚ) ∧ (5000 : ℚ) ≤ 3600) ∨
      ¬(-90 ≤ (0 : ℚ) ∧ (0 : ℚ) ≤ 90)) ∧
    goto_ra_dec true false .silent 5000 0 = (false, []) :=
  ⟨by norm_num,
    (c6_goto_validation true false .silent 5000 0).1 (by norm_num)⟩

/-- One round-trip command issued by `slew_to_coordinates`: set GOTO target
(`S`, 6-hex-digit step count), set GOTO speed (`I`), start motion (`J`).
The hex payload is modelled by the integer it encodes. -/
inductive SlewCmd
  | setTarget (axis : Char) (steps : ℤ)
  | setSpeed (axis : Char) (speed : ℤ)
  | startMotion (axis : Char)
  deriving DecidableEq

/-- The fixed command sequence of `slew_to_coordinates` (synscan.py lines
650–734): RA/DEC targets, GOTO speed per axis, start per axis. -/
def slew_cmds (st : MountState) (ra_deg dec_deg : ℚ) : List SlewCmd :=
  let ra_hours := ra_deg / 15
  let target_ra_steps := pyTrunc (ra_hours * (st.stepsPerRevolution : ℚ) / 24)
  let target_dec_steps := pyTrunc (dec_deg * (st.stepsPerRevolution : ℚ) / 360)
  let goto_speed := pyTrunc ((st.stepsPerRevolution : ℚ) / 360)
  [ .setTarget '1' target_ra_steps, .setTarget '2' target_dec_steps,
    .setSpeed '1' goto_speed, .setSpeed '2' goto_speed,
    .startMotion '1', .startMotion '2' ]

/-- Run a command sequence through `send_command` round trips, aborting at
the first failure; `resp k` abstracts whether the `k`-th round trip
returned non-`None`.  Returns the overall result and the commands actually
attempted. -/
def runSeq (resp : ℕ → Bool) : List SlewCmd → ℕ → Bool × List SlewCmd
  | [], _ => (true, [])
  | c :: rest, k =>
    if resp k then
      let r := runSeq resp rest (k + 1)
      (r.1, c :: r.2)
    else (false, [c])

/-- Transcription of `slew_to_coordinates(ra_deg, dec_deg)` (synscan.py lines 650–734). -/
def slew_to_coordinates (st : MountState) (ra_deg dec_deg : ℚ)
    (resp : ℕ → Bool) : Bool × List SlewCmd :=
  runSeq resp (slew_cmds st ra_deg dec_deg) 0

lemma runSeq_true_iff (cmds : List SlewCmd) (resp : ℕ → Bool) (k : ℕ) :
    (runSeq resp cmds k).1 = true ↔
      ∀ i, i < cmds.length → resp (k + i) = true := by
  induction cmds generalizing k with
  | nil => simp [runSeq]
  | cons c rest ih =>
    cases h : resp k with
    | true =>
      simp only [runSeq, h, if_true, List.length_cons]
      rw [ih (k + 1)]
      constructor
      · intro hr i hi
        cases i with
        | zero => simpa using h
        | succ j =>
          have := hr j (by omega)
          have harith : k + 1 + j = k + (j + 1) := by omega
          rw [harith] at this
          exact this
      · intro hall i hi
        have := hall (i + 1) (by omega)
        have harith : k + (i + 1) = k + 1 + i := by omega
        rw [harith] at this
        exact this
    | false =>
      simp only [runSeq, h, if_false, List.length_cons]
      constructor
      · intro hr; exact absurd hr (by simp)
      · intro hall
        have := hall 0 (by omega)
        simp at this
        rw [this] at h
        exact absurd h (by simp)

lemma runSeq_success_trace (cmds : List SlewCmd) (resp : ℕ → Bool) (k : ℕ)
    (h : (runSeq resp cmds k).1 = true) : (runSeq resp cmds k).2 = cmds := by
  induction cmds generalizing k with
  | nil => simp [runSeq]
  | cons c rest ih =>
    cases hr : resp k with
    | true =>
      simp only [runSeq, hr, if_true] at h ⊢
      rw [ih (k + 1) h]
    | false =>
      simp [runSeq, hr] at h

lemma runSeq_fail_trace (cmds : List SlewCmd) (resp : ℕ → Bool) (k : ℕ)
    (h : (runSeq resp cmds k).1 = false) :
    ∃ i, i < cmds.length ∧ resp (k + i) = false ∧
      (∀ j, j < i → resp (k + j) = true) ∧
      (runSeq resp cmds k).2 = cmds.take (i + 1) := by
  induction cmds generalizing k with
  | nil => simp [runSeq] at h
  | cons c rest ih =>
    cases hr : resp k with
    | false =>
      refine ⟨0, by simp, by simpa using hr, fun j hj => absurd hj (by omega), ?_⟩
      simp [runSeq, hr]
    | true =>
      simp only [runSeq, hr, if_true] at h ⊢
      obtain ⟨i, hi, hf, hprev, htr⟩ := ih (k + 1) h
      refine ⟨i + 1, by simp; omega, ?_, ?_, ?_⟩
      · have harith : k + (i + 1) = k + 1 + i := by omega
        rw [harith]
        exact hf
      · intro j hj
        cases j with
        | zero => simpa using hr
        | succ j' =>
          have harith : k + (j' + 1) = k + 1 + j' := by omega
          rw [harith]
          exact hprev j' (by omega)
      · simp only [List.take_succ_cons]
        rw [htr]

/-- C8 counterexample. The sequence `slew_to_coordinates` issues is six
round-trip commands (target, speed, and start, each per axis), not the four
the claim (following the spec) states: on a run where every round trip
succeeds, six commands are sent. -/
theorem c8_four_commands_counterexample :
    (slew_to_coordinates initState 15 20 (fun _ => true)).2.length = 6 ∧
      (6 : ℕ) ≠ 4 :=
  ⟨rfl, by decide⟩

/-- C8 amended. The operation `slew_to_coordinates` performs its six round-trip
commands (set GOTO target per axis, set GOTO speed per axis, start motion
per axis) strictly in order, aborts at the first failing round trip
returning `False` having attempted exactly the commands up to and including
the failing one, and returns `True` exactly when all six round trips
succeed. -/
theorem c8_slew_sequence (st : MountState) (ra_deg dec_deg : ℚ)
    (resp : ℕ → Bool) :
    ((slew_to_coordinates st ra_deg dec_deg resp).1 = true ↔
      ∀ i, i < 6 → resp i = true) ∧
    ((slew_to_coordinates st ra_deg dec_deg resp).1 = true →
      (slew_to_coordinates st ra_deg dec_deg resp).2 =
        slew_cmds st ra_deg dec_deg ∧
      (slew_cmds st ra_deg dec_deg).length = 6) ∧
    ((slew_to_coordinates st ra_deg dec_deg resp).1 = false →
      ∃ i, i < 6 ∧ resp i = false ∧ (∀ j, j < i → resp j = true) ∧
        (slew_to_coordinates st ra_deg dec_deg resp).2 =
          (slew_cmds st ra_deg dec_deg).take (i + 1)) := by
  have hlen : (slew_cmds st ra_deg dec_deg).length = 6 := rfl
  refine ⟨?_, fun h => ⟨runSeq_success_trace _ _ _ h, hlen⟩, ?_⟩
  · have h := runSeq_true_iff (slew_cmds st ra_deg dec_deg) resp 0
    rw [hlen] at h
    simpa using h
  · intro h
    obtain ⟨i, hi, hf, hprev, htr⟩ :=
      runSeq_fail_trace (slew_cmds st ra_deg dec_deg) resp 0 h
    rw [hlen] at hi
    refine ⟨i, hi, by simpa using hf, fun j hj => by simpa using hprev j hj,
      htr⟩

/-- Witness for the amended C8: with every round trip succeeding, the call
returns `True` and the full six-command sequence was sent. -/
theorem c8_slew_sequence_witness :
    (slew_to_coordinates initState 15 20 (fun _ => true)).1 = true ∧
      (slew_to_coordinates initState 15 20 (fun _ => true)).2 =
        slew_cmds initState 15 20 :=
  have htrue : (slew_to_coordinates initState 15 20 (fun _ => true)).1 =
      true := rfl
  ⟨htrue,
    ((c8_slew_sequence initState 15 20 (fun _ => true)).2.1 htrue).1⟩

/-- Transcription of `set_location(latitude, longitude, elevation)` (synscan.py lines
871–928): the observer cache — latitude, longitude and the derived
hemisphere — is assigned before the `Z1` command is attempted, so it is
updated on every outcome; the response read and exception handling follow
`send_command`'s simple read-to-CR loop. -/
def set_location (st : MountState) (latitude longitude : ℚ) (elevation : ℤ)
    (b : DeviceBehavior) : Bool × MountState :=
  let st' := { st with
    latitude := some latitude
    longitude := some longitude
    hemisphere := if 0 ≤ latitude then Hemisphere.north else Hemisphere.south }
  match b with
  | .raises => (false, st')
  | .silent => (false, st')
  | .replies line =>
    if (readToCR line).head? = some '=' then (true, st') else (false, st')

/-- C10. After every `set_location` call — whatever the device does and
whatever the call returns — the cached latitude and longitude equal the
arguments and the cached hemisphere is `NORTH` exactly when the new
latitude is `≥ 0`, `SOUTH` otherwise; the hemisphere is never stale. -/
theorem c10_set_location_hemisphere (st : MountState) (lat lon : ℚ)
    (elev : ℤ) (b : DeviceBehavior) :
    (set_location st lat lon elev b).2.latitude = some lat ∧
    (set_location st lat lon elev b).2.longitude = some lon ∧
    (set_location st lat lon elev b).2.hemisphere =
      (if 0 ≤ lat then Hemisphere.north else Hemisphere.south) := by
  cases b with
  | raises => simp [set_location]
  | silent => simp [set_location]
  | replies line =>
    simp only [set_location]
    split_ifs <;> simp

end SynScan
